import Mathlib

/-!
Verification development for the banana-fibre piecework settlement engine
(src/main.py). Pure fragments (currency rounding, the daily rubric, period
computation) are embedded as Lean functions over rationals and a calendar
date type; the storage-backed operations (task decisions, payroll views,
payroll runs) are embedded as functions from an explicit database value to
an Except result, where an error models an HTTPException (the transaction
rolls back, so an error leaves the stored state unchanged).

Money and quantity are rationals: the source uses Python Decimal, whose
additions and multiplications are exact; the two quantize modes used by the
source (ROUND_HALF_UP explicit, ROUND_HALF_EVEN by default) are modelled
explicitly at two decimal places.
-/

namespace Fibre

/-- Decimal quantize at two places with ROUND_HALF_UP (ties away from zero),
as used by decide_task. -/
def roundHalfUp2 (q : ℚ) : ℚ :=
  if 0 ≤ q then ((⌊q * 100 + 1/2⌋ : ℤ) : ℚ) / 100
  else ((-⌊-(q * 100) + 1/2⌋ : ℤ) : ℚ) / 100

/-- Decimal quantize at two places with the context default ROUND_HALF_EVEN
(banker's rounding), as used by bulk_decide, payroll and payroll_all. -/
def roundHalfEven2 (q : ℚ) : ℚ :=
  let x := q * 100
  let n : ℤ := ⌊x⌋
  let r : ℤ :=
    if x - (n : ℚ) < 1/2 then n
    else if 1/2 < x - (n : ℚ) then n + 1
    else if n % 2 = 0 then n else n + 1
  (r : ℚ) / 100

/-! Calendar dates. Python datetime.date values are modelled by their
(year, month, day) components; comparison is lexicographic, which agrees
with Python date comparison on valid dates. Date subtraction goes through
toOrd (a proleptic Gregorian day count, matching date.toordinal up to a
constant); timedelta addition iterates the calendar successor or
predecessor, which matches Python day arithmetic on valid dates. -/

structure Date where
  year : Nat
  month : Nat
  day : Nat
deriving DecidableEq

def isLeap (y : Nat) : Bool := (y % 4 == 0 && y % 100 != 0) || y % 400 == 0

/-- Number of days in a month, as calendar.monthrange. Months outside 1..12
do not occur on valid dates; the fallback value is irrelevant there. -/
def daysInMonth (y m : Nat) : Nat :=
  if m = 2 then (if isLeap y then 29 else 28)
  else if m = 4 ∨ m = 6 ∨ m = 9 ∨ m = 11 then 30
  else 31

/-- Days of the year strictly before month m. -/
def priorDays (y m : Nat) : Nat :=
  let L : Nat := if isLeap y then 1 else 0
  match m with
  | 1 => 0 | 2 => 31 | 3 => 59 + L | 4 => 90 + L | 5 => 120 + L | 6 => 151 + L
  | 7 => 181 + L | 8 => 212 + L | 9 => 243 + L | 10 => 273 + L | 11 => 304 + L
  | 12 => 334 + L
  | _ => 0

/-- Proleptic Gregorian day number (1 for January 1 of year 1), as
date.toordinal. -/
def toOrd (d : Date) : Nat :=
  365 * (d.year - 1) + (d.year - 1) / 4 - (d.year - 1) / 100 + (d.year - 1) / 400
    + priorDays d.year d.month + d.day

def dateLt (a b : Date) : Prop :=
  a.year < b.year ∨ (a.year = b.year ∧
    (a.month < b.month ∨ (a.month = b.month ∧ a.day < b.day)))

instance (a b : Date) : Decidable (dateLt a b) := by unfold dateLt; exact inferInstance

def dateLe (a b : Date) : Prop := dateLt a b ∨ a = b

instance (a b : Date) : Decidable (dateLe a b) := by unfold dateLe; exact inferInstance

def validDate (d : Date) : Prop :=
  1 ≤ d.year ∧ 1 ≤ d.month ∧ d.month ≤ 12 ∧ 1 ≤ d.day ∧ d.day ≤ daysInMonth d.year d.month

instance (d : Date) : Decidable (validDate d) := by unfold validDate; exact inferInstance

def nextDay (d : Date) : Date :=
  if d.day + 1 ≤ daysInMonth d.year d.month then ⟨d.year, d.month, d.day + 1⟩
  else if d.month + 1 ≤ 12 then ⟨d.year, d.month + 1, 1⟩
  else ⟨d.year + 1, 1, 1⟩

def prevDay (d : Date) : Date :=
  if 2 ≤ d.day then ⟨d.year, d.month, d.day - 1⟩
  else if 2 ≤ d.month then ⟨d.year, d.month - 1, daysInMonth d.year (d.month - 1)⟩
  else ⟨d.year - 1, 12, 31⟩

def nextDayIter : Nat → Date → Date
  | 0, d => d
  | n + 1, d => nextDayIter n (nextDay d)

def prevDayIter : Nat → Date → Date
  | 0, d => d
  | n + 1, d => prevDayIter n (prevDay d)

/-- Python date plus a timedelta of k days (k may be negative). -/
def addDays (d : Date) (k : ℤ) : Date :=
  if 0 ≤ k then nextDayIter k.toNat d else prevDayIter (-k).toNat d

/-- Python min of two dates. -/
def dmin (a b : Date) : Date := if dateLe a b then a else b

/-! The daily rubric (rubric_from_logged in the source): combing kilograms
and weaving metres are commensurated at METRES_PER_KG_EQUIV = 60 metres per
kilogram against DAILY_TARGET_KG_EQUIV = 1. -/

structure Rubric where
  progressKgEquiv : ℚ
  targetMet : Bool
  weavingNeededM : ℚ
  combingNeededKg : ℚ
deriving DecidableEq

def rubric_from_logged (combedKg wovenM : ℚ) : Rubric :=
  let progress := combedKg + wovenM / 60
  let targetMet := decide (1 ≤ progress)
  let weavingNeeded : ℚ :=
    if combedKg < 1 then
      (let w := (1 - combedKg) * 60; if w < 0 then 0 else w)
    else 0
  let combingNeeded : ℚ :=
    if wovenM < 60 then
      (let c := (60 - wovenM) / 60; if c < 0 then 0 else c)
    else 0
  ⟨progress, targetMet, weavingNeeded, combingNeeded⟩

inductive Freq | weekly | biweekly | monthly
deriving DecidableEq

/-- The weekly and biweekly body of period_for_worker for a given block
length (the source computes block as 7 for weekly, 14 for biweekly):
blocks tile forward from the anchor; when as_of precedes the anchor the
start clamps to the anchor, and the end never exceeds as_of. -/
def pfw_block (block : ℤ) (anchor asOf : Date) : Date × Date :=
  let delta : ℤ := (toOrd asOf : ℤ) - (toOrd anchor : ℤ)
  if delta < 0 then
    (anchor, dmin asOf (addDays anchor (block - 1)))
  else
    let start := addDays anchor (delta.fdiv block * block)
    let e := addDays start (block - 1)
    (start, if dateLt asOf e then asOf else e)

/-- period_for_worker from the source: monthly periods run from the first of
the as-of month to as_of itself; weekly and biweekly use 7- or 14-day
blocks. -/
def period_for_worker (freq : Freq) (anchor asOf : Date) : Date × Date :=
  match freq with
  | .monthly => (⟨asOf.year, asOf.month, 1⟩, asOf)
  | .weekly => pfw_block 7 anchor asOf
  | .biweekly => pfw_block 14 anchor asOf

/-- One calendar month after d with the day clamped to the target month's
length: the local add_month helper inside compute_period. -/
def addMonth (d : Date) : Date :=
  let y := d.year + d.month / 12
  let m := d.month % 12 + 1
  ⟨y, m, min d.day (daysInMonth y m)⟩

/-- The weekly and biweekly body of compute_period for a given block
length: full blocks tile in both directions from the anchor by floor
division of the signed day offset, and the end is always a full block
end. -/
def cp_block (days : ℤ) (anchor asOf : Date) : Date × Date :=
  let delta : ℤ := (toOrd asOf : ℤ) - (toOrd anchor : ℤ)
  let start :=
    if delta < 0 then addDays anchor (-(((-delta) + days - 1).fdiv days * days))
    else addDays anchor (delta.fdiv days * days)
  (start, addDays start (days - 1))

/-- compute_period from the source: weekly and biweekly tile full blocks in
both directions from the anchor (floor division of the signed offset);
monthly anchors on the anchor's day-of-month clamped into each month, with
the period running to the day before the next anchor. -/
def compute_period (payout : Freq) (anchor asOf : Date) : Date × Date :=
  match payout with
  | .monthly =>
    let anchorDom := anchor.day
    let last := daysInMonth asOf.year asOf.month
    let cand : Date := ⟨asOf.year, asOf.month, min anchorDom last⟩
    let start :=
      if dateLt asOf cand then
        if 1 < asOf.month then
          (⟨asOf.year, asOf.month - 1, min anchorDom (daysInMonth asOf.year (asOf.month - 1))⟩ : Date)
        else ⟨asOf.year - 1, 12, min anchorDom (daysInMonth (asOf.year - 1) 12)⟩
      else cand
    (start, addDays (addMonth start) (-1))
  | .weekly => cp_block 7 anchor asOf
  | .biweekly => cp_block 14 anchor asOf

/-! The stored entities. Identifiers are natural numbers (the source uses
UUIDs; only equality of identifiers matters). Rows are kept in lists in
insertion order. Fields not touched by any claim (timestamps, notes on
days, workstation references) are omitted. -/

inductive Status | pending | approved | rejected
deriving DecidableEq

inductive Decision | approved | rejected
deriving DecidableEq

def Decision.toStatus : Decision → Status
  | .approved => .approved
  | .rejected => .rejected

inductive Role | admin | supervisor
deriving DecidableEq

structure Worker where
  id : Nat
  fullName : String
  payout : Freq
  anchor : Date
  isActive : Bool
  factoryId : Option Nat
deriving DecidableEq

/-- task_types carries two rate columns: default_rate_ngn (read by
effective_rate) and rate_ngn_per_unit (read by decide_task and
payroll_due). -/
structure TaskType where
  id : Nat
  code : String
  defaultRate : ℚ
  ratePerUnit : ℚ
deriving DecidableEq

structure WorkerRate where
  workerId : Nat
  taskTypeId : Nat
  rate : ℚ
deriving DecidableEq

structure WorkDay where
  id : Nat
  workerId : Nat
  workDate : Date
  isClosed : Bool
  loggedBy : Nat
deriving DecidableEq

structure WorkTask where
  id : Nat
  workDayId : Nat
  taskTypeId : Nat
  quantity : ℚ
  status : Status
  approvedPay : ℚ
  paidRunId : Option Nat
  decidedBy : Option Nat
  decisionReason : Option String
  note : Option String
deriving DecidableEq

structure PayrollRun where
  id : Nat
  asOf : Date
  createdBy : Nat
  runNote : Option String
deriving DecidableEq

structure DB where
  workers : List Worker
  taskTypes : List TaskType
  workerRates : List WorkerRate
  workDays : List WorkDay
  workTasks : List WorkTask
  payrollRuns : List PayrollRun
deriving DecidableEq

/-- An HTTPException: status code and detail. Raising one inside the
transaction rolls it back, so an error result leaves the database as the
caller knew it. -/
structure Err where
  code : Nat
  detail : String
deriving DecidableEq

def findWorker (db : DB) (wid : Nat) : Option Worker :=
  db.workers.find? (fun w => w.id == wid)

def findTaskType (db : DB) (tid : Nat) : Option TaskType :=
  db.taskTypes.find? (fun t => t.id == tid)

def findDay (db : DB) (did : Nat) : Option WorkDay :=
  db.workDays.find? (fun d => d.id == did)

def findTask (db : DB) (tid : Nat) : Option WorkTask :=
  db.workTasks.find? (fun t => t.id == tid)

/-- effective_rate: the worker-specific override first, else the task
type's default_rate_ngn, else zero when the task type row is missing. -/
def effective_rate (db : DB) (workerId taskTypeId : Nat) : ℚ :=
  match db.workerRates.find? (fun r => r.workerId == workerId && r.taskTypeId == taskTypeId) with
  | some r => r.rate
  | none =>
    match findTaskType db taskTypeId with
    | some tt => tt.defaultRate
    | none => 0

/-- assert_workday_open_by_task: 404 when the task (or, through the join,
its work day) is missing, 400 when the owning day is closed. -/
def assert_workday_open_by_task (db : DB) (taskId : Nat) : Except Err Unit :=
  match findTask db taskId with
  | none => .error ⟨404, "Task not found"⟩
  | some t =>
    match findDay db t.workDayId with
    | none => .error ⟨404, "Task not found"⟩
    | some wd =>
      if wd.isClosed then .error ⟨400, "Work day is closed"⟩ else .ok ()

/-- can_decide_task: an admin may decide any task; a supervisor only tasks
on days they themselves logged (false when the task or day is missing). -/
def can_decide_task (db : DB) (deciderId : Nat) (role : Role) (taskId : Nat) : Bool :=
  match role with
  | .admin => true
  | .supervisor =>
    match findTask db taskId with
    | none => false
    | some t =>
      match findDay db t.workDayId with
      | none => false
      | some wd => wd.loggedBy == deciderId

def setTaskDecision (db : DB) (taskId : Nat) (st : Status) (by' : Nat)
    (reason : Option String) (pay : ℚ) : DB :=
  { db with workTasks := db.workTasks.map (fun t =>
      if t.id == taskId then
        { t with status := st, decidedBy := some by', decisionReason := reason,
                 approvedPay := pay }
      else t) }

/-- decide_task: the single-task decision endpoint. Note that the rate it
applies is the task type's rate_ngn_per_unit from the join, with no
worker-rate override, and the rounding is explicit ROUND_HALF_UP. -/
def decide_task (db : DB) (taskId : Nat) (newStatus : Decision)
    (reason : Option String) (uid : Nat) : Except Err (DB × ℚ) := do
  let () ← assert_workday_open_by_task db taskId
  match findTask db taskId with
  | none => .error ⟨404, "Task not found"⟩
  | some wt =>
    match findTaskType db wt.taskTypeId with
    | none => .error ⟨404, "Task not found"⟩
    | some tt =>
      if wt.paidRunId.isSome then
        .error ⟨409, "Task already paid; cannot change decision"⟩
      else
        let pay : ℚ :=
          match newStatus with
          | .approved => roundHalfUp2 (wt.quantity * tt.ratePerUnit)
          | .rejected => 0
        .ok (setTaskDecision db taskId newStatus.toStatus uid reason pay, pay)

/-- One iteration of the bulk_decide loop: skipped tasks (closed day,
missing rows, authorization) leave the accumulator unchanged. There is no
paid_run_id check here, and the pay uses effective_rate with the default
ROUND_HALF_EVEN quantize. -/
def bulk_decide_step (uid : Nat) (role : Role) (st : Decision)
    (reason : Option String) (acc : DB × Nat) (tid : Nat) : DB × Nat :=
  let (db, updated) := acc
  match assert_workday_open_by_task db tid with
  | .error _ => (db, updated)
  | .ok () =>
    if ¬ can_decide_task db uid role tid then (db, updated)
    else
      match findTask db tid with
      | none => (db, updated)
      | some wt =>
        match findDay db wt.workDayId with
        | none => (db, updated)
        | some wd =>
          let rate := effective_rate db wd.workerId wt.taskTypeId
          let pay : ℚ :=
            match st with
            | .approved => roundHalfEven2 (wt.quantity * rate)
            | .rejected => 0
          (setTaskDecision db tid st.toStatus uid reason pay, updated + 1)

/-- bulk_decide: decide many tasks in one call, skipping failures and
returning the database plus the count of successful updates. -/
def bulk_decide (db : DB) (taskIds : List Nat) (st : Decision)
    (reason : Option String) (uid : Nat) (role : Role) : DB × Nat :=
  taskIds.foldl (bulk_decide_step uid role st reason) (db, 0)

/-- add_work_task: create a task on a day; negative quantity 400, missing
day 404, closed day 400, and an existing id is an idempotent no-op. -/
def add_work_task (db : DB) (workDayId taskTypeId : Nat) (quantity : ℚ)
    (note : Option String) (newId : Nat) : Except Err (DB × Nat) :=
  if quantity < 0 then .error ⟨400, "Quantity cannot be negative"⟩
  else
    match findDay db workDayId with
    | none => .error ⟨404, "Work day not found"⟩
    | some wd =>
      if wd.isClosed then .error ⟨400, "Work day is closed"⟩
      else if (findTask db newId).isSome then .ok (db, newId)
      else
        .ok ({ db with workTasks := db.workTasks ++
          [⟨newId, workDayId, taskTypeId, quantity, .pending, 0, none, none, none, note⟩] }, newId)

structure TaskPatch where
  quantity : Option ℚ
  note : Option String
  taskTypeId : Option Nat

/-- update_pending_task: edit a pending task; closed day 400, missing task
404, non-pending 400, supervisor editing a day logged by someone else
403, negative quantity 400. -/
def update_pending_task (db : DB) (taskId : Nat) (patch : TaskPatch)
    (uid : Nat) (role : Role) : Except Err DB := do
  let () ← assert_workday_open_by_task db taskId
  match findTask db taskId with
  | none => .error ⟨404, "Task not found"⟩
  | some wt =>
    match findDay db wt.workDayId with
    | none => .error ⟨404, "Task not found"⟩
    | some wd =>
      if wt.status ≠ .pending then .error ⟨400, "Only pending tasks can be edited"⟩
      else if role = .supervisor ∧ wd.loggedBy ≠ uid then
        .error ⟨403, "Supervisors can only edit tasks they logged"⟩
      else
        match patch.quantity with
        | some q =>
          if q < 0 then .error ⟨400, "Quantity must be >= 0"⟩
          else .ok (applyPatch db taskId patch)
        | none =>
          if patch.note.isNone ∧ patch.taskTypeId.isNone then .ok db
          else .ok (applyPatch db taskId patch)
where
  applyPatch (db : DB) (taskId : Nat) (patch : TaskPatch) : DB :=
    { db with workTasks := db.workTasks.map (fun t =>
        if t.id == taskId then
          { t with quantity := patch.quantity.getD t.quantity,
                   note := if patch.note.isSome then patch.note else t.note,
                   taskTypeId := patch.taskTypeId.getD t.taskTypeId }
        else t) }

/-- delete_pending_task: closed day 400, missing 404, non-pending 400,
wrong supervisor 403; otherwise the row is removed. -/
def delete_pending_task (db : DB) (taskId : Nat) (uid : Nat) (role : Role) :
    Except Err DB := do
  let () ← assert_workday_open_by_task db taskId
  match findTask db taskId with
  | none => .error ⟨404, "Task not found"⟩
  | some wt =>
    match findDay db wt.workDayId with
    | none => .error ⟨404, "Task not found"⟩
    | some wd =>
      if wt.status ≠ .pending then .error ⟨400, "Only pending tasks can be deleted"⟩
      else if role = .supervisor ∧ wd.loggedBy ≠ uid then
        .error ⟨403, "Supervisors can only delete tasks they logged"⟩
      else .ok { db with workTasks := db.workTasks.filter (fun t => ¬ t.id == taskId) }

/-- The join and range condition shared by the payroll queries: the task's
work day belongs to the worker and its date lies in the inclusive period. -/
def taskInPeriod (db : DB) (wid : Nat) (s e : Date) (t : WorkTask) : Bool :=
  match findDay db t.workDayId with
  | some wd => wd.workerId == wid && decide (dateLe s wd.workDate) && decide (dateLe wd.workDate e)
  | none => false

/-- The inner join on task_types keeps only tasks whose type row exists. -/
def hasTaskType (db : DB) (t : WorkTask) : Bool := (findTaskType db t.taskTypeId).isSome

def taskCode (db : DB) (t : WorkTask) : String :=
  match findTaskType db t.taskTypeId with
  | some tt => tt.code
  | none => ""

def ratePerUnitOf (db : DB) (t : WorkTask) : ℚ :=
  match findTaskType db t.taskTypeId with
  | some tt => tt.ratePerUnit
  | none => 0

/-- The approved-and-unpaid selection of the single-worker payroll view,
of payroll_due, and of the text of create_payroll_run's eligibility query:
status approved and paid_run_id null within the period. -/
def payrollRows (db : DB) (wid : Nat) (s e : Date) : List WorkTask :=
  db.workTasks.filter (fun t => taskInPeriod db wid s e t && hasTaskType db t
    && t.status == Status.approved && t.paidRunId.isNone)

structure PayOut where
  periodStart : Date
  periodEnd : Date
  totalPay : ℚ
  combedKg : ℚ
  wovenM : ℚ
deriving DecidableEq

/-- The single-worker payroll view (GET payroll): approved, unpaid tasks of
the worker's current period, total quantized at two places. -/
def payroll_view (db : DB) (wid : Nat) (asOf : Date) : Except Err PayOut :=
  match findWorker db wid with
  | none => .error ⟨404, "Worker not found"⟩
  | some w =>
    let p := period_for_worker w.payout w.anchor asOf
    let rows := payrollRows db wid p.1 p.2
    let total := (rows.map (fun t => t.approvedPay)).sum
    let combed := ((rows.filter (fun t => taskCode db t == "COMBING")).map (fun t => t.quantity)).sum
    let woven := ((rows.filter (fun t => taskCode db t == "WEAVING")).map (fun t => t.quantity)).sum
    .ok ⟨p.1, p.2, roundHalfEven2 total, combed, woven⟩

/-- The selection of the all-workers payroll listing: it filters on
approved status only and does not exclude tasks already claimed by a run. -/
def payroll_all_rows (db : DB) (wid : Nat) (s e : Date) : List WorkTask :=
  db.workTasks.filter (fun t => taskInPeriod db wid s e t && hasTaskType db t
    && t.status == Status.approved)

/-- The loop body of the all-workers payroll listing for one worker. The
source sums with the builtin sum and no start value, so a worker with no
selected rows makes sum return the integer 0, whose quantize call raises
AttributeError (a 500 for the whole request). -/
def payroll_all_item (db : DB) (w : Worker) (asOf : Date) : Except Err ℚ :=
  let p := period_for_worker w.payout w.anchor asOf
  let rows := payroll_all_rows db w.id p.1 p.2
  match rows with
  | [] => .error ⟨500, "AttributeError: int object has no attribute quantize"⟩
  | _ => .ok (roundHalfEven2 ((rows.map (fun t => t.approvedPay)).sum))

/-- The all-workers payroll listing maps the loop body over active
workers, aborting on the first failure. -/
def payroll_all (db : DB) (asOf : Date) : Except Err (List (Nat × ℚ)) :=
  (db.workers.filter (fun w => w.isActive)).mapM
    (fun w => (payroll_all_item db w asOf).map (fun q => (w.id, q)))

structure DueEntry where
  workerId : Nat
  fullName : String
  periodStart : Date
  periodEnd : Date
  combedKg : ℚ
  wovenM : ℚ
  totalPay : ℚ
deriving DecidableEq

/-- One worker's row of the payroll-due preview. The period comes from
compute_period; a worker whose period has not ended by as_of is skipped,
and only positive recomputed totals are returned. The source also skips a
NULL anchor date, which cannot occur in this model where the anchor column
is total. The total is the sum of the three coalesced case branches of the
SQL (combing, weaving or twisting, everything else), each summing quantity
times the task type's rate_ngn_per_unit over approved unpaid tasks. -/
def payroll_due_entry (db : DB) (w : Worker) (asOf : Date) : Option DueEntry :=
  let p := compute_period w.payout w.anchor asOf
  if dateLt asOf p.2 then none
  else
    let rows := payrollRows db w.id p.1 p.2
    let combed := ((rows.filter (fun t => taskCode db t == "COMBING")).map (fun t => t.quantity)).sum
    let woven := ((rows.filter (fun t => taskCode db t == "WEAVING" || taskCode db t == "TWISTING")).map
      (fun t => t.quantity)).sum
    let payOf : WorkTask → ℚ := fun t => t.quantity * ratePerUnitOf db t
    let totalPay :=
      ((rows.filter (fun t => taskCode db t == "COMBING")).map payOf).sum
      + ((rows.filter (fun t => taskCode db t == "WEAVING" || taskCode db t == "TWISTING")).map payOf).sum
      + ((rows.filter (fun t => ¬ (taskCode db t == "COMBING" || taskCode db t == "WEAVING"
          || taskCode db t == "TWISTING"))).map payOf).sum
    if 0 < totalPay then some ⟨w.id, w.fullName, p.1, p.2, combed, woven, totalPay⟩ else none

/-- The payroll-due read path: active workers, restricted to the
supervisor's factory when a factory scope is present. -/
def payroll_due (db : DB) (asOf : Date) (role : Role) (factoryScope : Option Nat) : List DueEntry :=
  let ws : List Worker :=
    match role, factoryScope with
    | .supervisor, some fid => db.workers.filter (fun w => w.isActive && w.factoryId == some fid)
    | _, _ => db.workers.filter (fun w => w.isActive)
  ws.filterMap (fun w => payroll_due_entry db w asOf)

/-- create_payroll_run. After inserting the run header the source iterates
the active workers; its per-worker eligibility query (source lines
1512 to 1521) binds the parameters from names worker_id, period_start and
period_end, but the enclosing loop only defines wid, start and end, and no
such global names exist, so the first iteration raises NameError: the
transaction rolls back and nothing is persisted. Only with no active
worker at all does the function commit, leaving a run header with no
items and no task marked paid. -/
def create_payroll_run (db : DB) (asOf : Date) (note : Option String)
    (uid runId : Nat) : Except Err (DB × Nat) :=
  if (db.workers.filter (fun w => w.isActive)).isEmpty then
    .ok ({ db with payrollRuns := db.payrollRuns ++ [⟨runId, asOf, uid, note⟩] }, runId)
  else .error ⟨500, "NameError: name worker_id is not defined"⟩

/-! Calendar lemmas: the lexicographic order, the day count toOrd, and the
successor/predecessor functions fit together on valid dates. -/

theorem dateLe_refl (a : Date) : dateLe a a := Or.inr rfl

theorem dateLe_trans {a b c : Date} (h1 : dateLe a b) (h2 : dateLe b c) : dateLe a c := by
  obtain ⟨ay, am, ad⟩ := a; obtain ⟨by', bm, bd⟩ := b; obtain ⟨cy, cm, cd⟩ := c
  simp only [dateLe, dateLt, Date.mk.injEq] at *
  omega

theorem dateLt_of_not_dateLe {a b : Date} (h : ¬ dateLe a b) : dateLt b a := by
  obtain ⟨ay, am, ad⟩ := a; obtain ⟨by', bm, bd⟩ := b
  simp only [dateLe, dateLt, Date.mk.injEq] at *
  omega

theorem dateLe_of_dateLt {a b : Date} (h : dateLt a b) : dateLe a b := Or.inl h

theorem daysInMonth_ge (y m : Nat) : 28 ≤ daysInMonth y m := by
  unfold daysInMonth
  split
  · split <;> omega
  · split <;> omega

theorem priorDays_succ (y m : Nat) (h1 : 1 ≤ m) (h2 : m ≤ 11) :
    priorDays y (m + 1) = priorDays y m + daysInMonth y m := by
  interval_cases m <;> cases hL : isLeap y <;> simp [priorDays, daysInMonth, hL]

theorem priorDays_bound (y m : Nat) (h1 : 1 ≤ m) (h2 : m ≤ 12) :
    priorDays y m + daysInMonth y m ≤ 365 + (if isLeap y then 1 else 0) := by
  interval_cases m <;> cases hL : isLeap y <;> simp [priorDays, daysInMonth, hL]

theorem priorDays_mono (y : Nat) {m m' : Nat} (h1 : 1 ≤ m) (hle : m ≤ m') (h2 : m' ≤ 12) :
    priorDays y m ≤ priorDays y m' := by
  induction m' with
  | zero => omega
  | succ n ih =>
    rcases Nat.lt_or_ge m (n + 1) with hlt | hge
    · have hs := priorDays_succ y n (by omega) (by omega)
      have hi := ih (by omega) (by omega)
      omega
    · have : m = n + 1 := by omega
      subst this
      exact Nat.le_refl _

theorem priorDays_add_le (y : Nat) {m m' : Nat} (h1 : 1 ≤ m) (hlt : m < m') (h2 : m' ≤ 12) :
    priorDays y m + daysInMonth y m ≤ priorDays y m' := by
  rw [← priorDays_succ y m h1 (by omega)]
  exact priorDays_mono y (by omega) (by omega) h2

/-- Number of leap years among 1..y. -/
def leaps (y : Nat) : Nat := y / 4 - y / 100 + y / 400

theorem isLeap_iff (y : Nat) : isLeap y = true ↔ (y % 4 = 0 ∧ y % 100 ≠ 0) ∨ y % 400 = 0 := by
  simp [isLeap]

theorem leaps_succ (y : Nat) (h : 1 ≤ y) :
    leaps y = leaps (y - 1) + (if isLeap y then 1 else 0) := by
  have hiff := isLeap_iff y
  cases hb : isLeap y <;> simp [hb] at hiff ⊢ <;> unfold leaps <;> omega

theorem leaps_mono {a b : Nat} (h : a ≤ b) : leaps a ≤ leaps b := by
  induction b with
  | zero =>
    have : a = 0 := by omega
    subst this
    exact Nat.le_refl _
  | succ n ih =>
    rcases Nat.lt_or_ge a (n + 1) with hlt | hge
    · have h1 := leaps_succ (n + 1) (by omega)
      have h2 := ih (by omega)
      rw [Nat.add_sub_cancel] at h1
      split at h1 <;> omega
    · have : a = n + 1 := by omega
      subst this
      exact Nat.le_refl _

theorem toOrd_eq (d : Date) :
    toOrd d = 365 * (d.year - 1) + leaps (d.year - 1) + priorDays d.year d.month + d.day := by
  unfold toOrd leaps
  omega

theorem toOrd_nextDay (d : Date) (h : validDate d) : toOrd (nextDay d) = toOrd d + 1 := by
  obtain ⟨y, m, dd⟩ := d
  obtain ⟨hy, hm1, hm2, hd1, hd2⟩ := h
  unfold nextDay
  simp only at *
  split
  · rw [toOrd_eq, toOrd_eq]
    simp only
    omega
  · rename_i hroll
    split
    · rename_i hm11
      rw [toOrd_eq, toOrd_eq]
      simp only
      have hdim : dd = daysInMonth y m := by omega
      have hstep := priorDays_succ y m hm1 (by omega)
      omega
    · rename_i hm12
      have hm' : m = 12 := by omega
      subst hm'
      have h31 : daysInMonth y 12 = 31 := by simp [daysInMonth]
      have hdd : dd = 31 := by omega
      subst hdd
      rw [toOrd_eq, toOrd_eq]
      simp only [Nat.add_sub_cancel]
      have hls := leaps_succ y hy
      have hp1 : priorDays (y + 1) 1 = 0 := by simp [priorDays]
      have hp12 : priorDays y 12 = 334 + (if isLeap y then 1 else 0) := by
        simp [priorDays]
      rw [hp1, hp12]
      cases hb : isLeap y <;> simp only [hb] at hls ⊢ <;> simp at hls ⊢ <;> omega

theorem nextDay_valid (d : Date) (h : validDate d) : validDate (nextDay d) := by
  obtain ⟨y, m, dd⟩ := d
  obtain ⟨hy, hm1, hm2, hd1, hd2⟩ := h
  unfold nextDay validDate
  have h1 := daysInMonth_ge y (m + 1)
  have h2 := daysInMonth_ge (y + 1) 1
  simp only at *
  split
  · simp only; omega
  · split <;> simp only <;> omega

theorem nextDayIter_spec (n : Nat) (d : Date) (h : validDate d) :
    validDate (nextDayIter n d) ∧ toOrd (nextDayIter n d) = toOrd d + n := by
  induction n generalizing d with
  | zero => exact ⟨h, by simp [nextDayIter]⟩
  | succ n ih =>
    have h1 := nextDay_valid d h
    have h2 := toOrd_nextDay d h
    have h3 := ih (nextDay d) h1
    simp only [nextDayIter] at *
    exact ⟨h3.1, by omega⟩

theorem dateLt_nextDay (d : Date) : dateLt d (nextDay d) := by
  obtain ⟨y, m, dd⟩ := d
  unfold nextDay dateLt
  dsimp only
  split
  · dsimp only; omega
  · split <;> dsimp only <;> omega

theorem dateLe_nextDayIter (n : Nat) (d : Date) : dateLe d (nextDayIter n d) := by
  induction n generalizing d with
  | zero => exact dateLe_refl d
  | succ n ih =>
    exact dateLe_trans (dateLe_of_dateLt (dateLt_nextDay d)) (ih (nextDay d))

theorem toOrd_lt_of_dateLt {a b : Date} (ha : validDate a) (hb : validDate b)
    (h : dateLt a b) : toOrd a < toOrd b := by
  obtain ⟨ay, am, ad⟩ := a; obtain ⟨by', bm, bd⟩ := b
  rw [toOrd_eq, toOrd_eq]
  unfold validDate at ha hb
  unfold dateLt at h
  dsimp only at *
  obtain ⟨hay, ham1, ham2, had1, had2⟩ := ha
  obtain ⟨hby, hbm1, hbm2, hbd1, hbd2⟩ := hb
  rcases h with hy | ⟨hy, hm | ⟨hm, hd⟩⟩
  · have hpa := priorDays_bound ay am ham1 ham2
    have hls := leaps_succ ay hay
    have hmono : leaps ay ≤ leaps (by' - 1) := leaps_mono (by omega)
    cases hb : isLeap ay <;> simp only [hb] at hpa hls <;> simp at hpa hls <;> omega
  · subst hy
    have := priorDays_add_le ay ham1 hm hbm2
    omega
  · subst hy; subst hm; omega

theorem dateLe_iff_toOrd {a b : Date} (ha : validDate a) (hb : validDate b) :
    dateLe a b ↔ toOrd a ≤ toOrd b := by
  constructor
  · rintro (h | rfl)
    · exact Nat.le_of_lt (toOrd_lt_of_dateLt ha hb h)
    · exact Nat.le_refl _
  · intro h
    by_contra hc
    exact absurd h (Nat.not_le.mpr (toOrd_lt_of_dateLt hb ha (dateLt_of_not_dateLe hc)))

theorem addDays_nonneg_spec (d : Date) (k : ℤ) (hk : 0 ≤ k) (h : validDate d) :
    validDate (addDays d k) ∧ (toOrd (addDays d k) : ℤ) = toOrd d + k := by
  unfold addDays
  rw [if_pos hk]
  have := nextDayIter_spec k.toNat d h
  refine ⟨this.1, ?_⟩
  rw [this.2]
  push_cast
  omega

theorem dateLe_addDays_nonneg (d : Date) (k : ℤ) (hk : 0 ≤ k) : dateLe d (addDays d k) := by
  unfold addDays
  rw [if_pos hk]
  exact dateLe_nextDayIter _ _

theorem addDays_neg_one (d : Date) : addDays d (-1) = prevDay d := by
  norm_num [addDays, prevDayIter]

theorem dateLe_prevDay_addMonth (s : Date) (hm1 : 1 ≤ s.month) (hm2 : s.month ≤ 12)
    (hd : 1 ≤ s.day) : dateLe s (prevDay (addMonth s)) := by
  obtain ⟨sy, sm, sd⟩ := s
  have h1 := daysInMonth_ge (sy + sm / 12) (sm % 12 + 1)
  have h2 := daysInMonth_ge (sy + sm / 12) (sm % 12 + 1 - 1)
  have h3 := daysInMonth_ge sy sm
  unfold addMonth prevDay
  simp only [dateLe, dateLt, Date.mk.injEq]
  simp only at hm1 hm2 hd
  split
  · try dsimp only
    omega
  · split <;> (try dsimp only) <;> omega

theorem cp_block_end_ge_start (days : ℤ) (anchor asOf : Date) (hd : 1 ≤ days) :
    dateLe (cp_block days anchor asOf).1 (cp_block days anchor asOf).2 := by
  unfold cp_block
  exact dateLe_addDays_nonneg _ _ (by omega)

theorem pfw_block_end_ge_start (block : ℤ) (anchor asOf : Date)
    (hb : 0 < block) (hA : validDate anchor) (hO : validDate asOf)
    (hanle : dateLe anchor asOf) :
    dateLe (pfw_block block anchor asOf).1 (pfw_block block anchor asOf).2 := by
  have hdelta : (0 : ℤ) ≤ (toOrd asOf : ℤ) - (toOrd anchor : ℤ) := by
    have := (dateLe_iff_toOrd hA hO).mp hanle
    omega
  unfold pfw_block
  rw [if_neg (by omega)]
  dsimp only
  have hq1 : 0 ≤ ((toOrd asOf : ℤ) - (toOrd anchor : ℤ)).fdiv block * block := by
    rw [Int.fdiv_eq_ediv _ (by omega)]
    exact Int.mul_nonneg (Int.ediv_nonneg hdelta (by omega)) (by omega)
  have hq2 : ((toOrd asOf : ℤ) - (toOrd anchor : ℤ)).fdiv block * block
      ≤ (toOrd asOf : ℤ) - (toOrd anchor : ℤ) := by
    rw [Int.fdiv_eq_ediv _ (by omega)]
    exact Int.ediv_mul_le _ (by omega)
  have hs := addDays_nonneg_spec anchor _ hq1 hA
  have hle : dateLe (addDays anchor (((toOrd asOf : ℤ) - (toOrd anchor : ℤ)).fdiv block * block)) asOf := by
    rw [dateLe_iff_toOrd hs.1 hO]
    omega
  split
  · exact hle
  · exact dateLe_addDays_nonneg _ _ (by omega)

theorem compute_period_end_ge_start (payout : Freq) (anchor asOf : Date)
    (hA : validDate anchor) (hO : validDate asOf) :
    dateLe (compute_period payout anchor asOf).1 (compute_period payout anchor asOf).2 := by
  obtain ⟨hAy, hAm1, hAm2, hAd1, hAd2⟩ := hA
  obtain ⟨hOy, hOm1, hOm2, hOd1, hOd2⟩ := hO
  cases payout with
  | monthly =>
    simp only [compute_period]
    rw [addDays_neg_one]
    have hd1 := daysInMonth_ge asOf.year asOf.month
    have hd2 := daysInMonth_ge asOf.year (asOf.month - 1)
    have hd3 := daysInMonth_ge (asOf.year - 1) 12
    split
    · split
      · exact dateLe_prevDay_addMonth _ (by dsimp only; omega) (by dsimp only; omega)
          (by dsimp only; omega)
      · exact dateLe_prevDay_addMonth _ (by dsimp only; omega) (by dsimp only; omega)
          (by dsimp only; omega)
    · exact dateLe_prevDay_addMonth _ (by dsimp only; omega) (by dsimp only; omega)
        (by dsimp only; omega)
  | weekly =>
    simp only [compute_period]
    exact cp_block_end_ge_start 7 anchor asOf (by norm_num)
  | biweekly =>
    simp only [compute_period]
    exact cp_block_end_ge_start 14 anchor asOf (by norm_num)

theorem period_for_worker_end_ge_start (freq : Freq) (anchor asOf : Date)
    (hA : validDate anchor) (hO : validDate asOf)
    (hcase : freq = .monthly ∨ dateLe anchor asOf) :
    dateLe (period_for_worker freq anchor asOf).1 (period_for_worker freq anchor asOf).2 := by
  cases freq with
  | monthly =>
    obtain ⟨oy, om, od⟩ := asOf
    obtain ⟨hOy, hOm1, hOm2, hOd1, hOd2⟩ := hO
    simp only [period_for_worker, dateLe, dateLt, Date.mk.injEq, true_and, and_true,
      lt_self_iff_false, false_or] at *
    omega
  | weekly =>
    have hanle : dateLe anchor asOf := by
      rcases hcase with h | h
      · exact absurd h (by simp)
      · exact h
    simp only [period_for_worker]
    exact pfw_block_end_ge_start 7 anchor asOf (by norm_num) hA hO hanle
  | biweekly =>
    have hanle : dateLe anchor asOf := by
      rcases hcase with h | h
      · exact absurd h (by simp)
      · exact h
    simp only [period_for_worker]
    exact pfw_block_end_ge_start 14 anchor asOf (by norm_num) hA hO hanle

/-- Among all dates lying on the clamped anchor day of their month, the
monthly compute_period start is the latest one at or before as_of. -/
theorem monthly_start_max (anchor asOf t : Date) (hA : validDate anchor)
    (hO : validDate asOf) (ht : validDate t) (hle : dateLe t asOf)
    (hday : t.day = min anchor.day (daysInMonth t.year t.month)) :
    dateLe t (compute_period .monthly anchor asOf).1 := by
  obtain ⟨ny, nm, nd⟩ := anchor
  obtain ⟨oy, om, od⟩ := asOf
  obtain ⟨ty, tm, td⟩ := t
  obtain ⟨hAy, hAm1, hAm2, hAd1, hAd2⟩ := hA
  obtain ⟨hOy, hOm1, hOm2, hOd1, hOd2⟩ := hO
  obtain ⟨hty1, htm1, htm2, htd1, htd2⟩ := ht
  simp only at hAy hAm1 hAm2 hAd1 hAd2 hOy hOm1 hOm2 hOd1 hOd2 hty1 htm1 htm2 htd1 htd2 hday
  simp only [compute_period]
  split
  case isTrue hcand =>
    simp only [dateLt, Date.mk.injEq, true_and, and_true, lt_self_iff_false,
      false_or] at hcand
    split
    case isTrue hom =>
      simp only [dateLe, dateLt, Date.mk.injEq, true_and, and_true, lt_self_iff_false,
        false_or] at hle ⊢
      by_cases hty : ty = oy
      · subst hty
        by_cases htm : tm = om
        · subst htm
          exfalso
          omega
        · by_cases htm2 : tm = om - 1
          · subst htm2
            omega
          · omega
      · omega
    case isFalse hom =>
      simp only [dateLe, dateLt, Date.mk.injEq, true_and, and_true, lt_self_iff_false,
        false_or] at hle ⊢
      have hom1 : om = 1 := by omega
      subst hom1
      by_cases hty : ty = oy
      · subst hty
        have htm1a : tm = 1 := by omega
        subst htm1a
        exfalso
        omega
      · by_cases hty2 : ty = oy - 1
        · subst hty2
          by_cases htm12 : tm = 12
          · subst htm12
            omega
          · omega
        · omega
  case isFalse hcand =>
    simp only [dateLt, Date.mk.injEq, true_and, and_true, lt_self_iff_false,
      false_or] at hcand
    simp only [dateLe, dateLt, Date.mk.injEq, true_and, and_true, lt_self_iff_false,
      false_or] at hle ⊢
    by_cases hty : ty = oy
    · subst hty
      by_cases htm : tm = om
      · subst htm
        omega
      · omega
    · omega

/-- The monthly compute_period start is a valid date at or before as_of
whose day is the anchor's day-of-month clamped to its own month. -/
theorem monthly_start_facts (anchor asOf : Date) (hA : validDate anchor)
    (hO : validDate asOf) (hy2 : 2 ≤ asOf.year) :
    validDate (compute_period .monthly anchor asOf).1
    ∧ dateLe (compute_period .monthly anchor asOf).1 asOf
    ∧ (compute_period .monthly anchor asOf).1.day
        = min anchor.day (daysInMonth (compute_period .monthly anchor asOf).1.year
            (compute_period .monthly anchor asOf).1.month) := by
  obtain ⟨ny, nm, nd⟩ := anchor
  obtain ⟨oy, om, od⟩ := asOf
  obtain ⟨hAy, hAm1, hAm2, hAd1, hAd2⟩ := hA
  obtain ⟨hOy, hOm1, hOm2, hOd1, hOd2⟩ := hO
  simp only at hAy hAm1 hAm2 hAd1 hAd2 hOy hOm1 hOm2 hOd1 hOd2 hy2
  simp only [compute_period]
  split
  case isTrue hcand =>
    simp only [dateLt, Date.mk.injEq, true_and, and_true, lt_self_iff_false,
      false_or] at hcand
    split
    case isTrue hom =>
      have hdim := daysInMonth_ge oy (om - 1)
      refine ⟨?_, ?_, ?_⟩
      · simp only [validDate]
        omega
      · simp only [dateLe, dateLt, Date.mk.injEq, true_and, and_true, lt_self_iff_false,
          false_or]
        omega
      · rfl
    case isFalse hom =>
      have hdim := daysInMonth_ge (oy - 1) 12
      refine ⟨?_, ?_, ?_⟩
      · simp only [validDate]
        omega
      · simp only [dateLe, dateLt, Date.mk.injEq, true_and, and_true, lt_self_iff_false,
          false_or]
        omega
      · rfl
  case isFalse hcand =>
    simp only [dateLt, Date.mk.injEq, true_and, and_true, lt_self_iff_false,
      false_or] at hcand
    have hdim := daysInMonth_ge oy om
    refine ⟨?_, ?_, ?_⟩
    · simp only [validDate]
      omega
    · simp only [dateLe, dateLt, Date.mk.injEq, true_and, and_true, lt_self_iff_false,
        false_or]
      omega
    · rfl

theorem addMonth_valid (d : Date) (h0 : 1 ≤ d.year) (h1 : 1 ≤ d.month)
    (h2 : d.month ≤ 12) (h3 : 1 ≤ d.day) :
    validDate (addMonth d) ∧ (2 ≤ (addMonth d).month ∨ 2 ≤ (addMonth d).year) := by
  obtain ⟨y, m, dd⟩ := d
  simp only at h0 h1 h2 h3
  have hdim := daysInMonth_ge (y + m / 12) (m % 12 + 1)
  unfold addMonth validDate
  dsimp only
  omega

theorem prevDay_valid (d : Date) (h : validDate d)
    (h2 : 2 ≤ d.month ∨ 2 ≤ d.year ∨ 2 ≤ d.day) : validDate (prevDay d) := by
  obtain ⟨y, m, dd⟩ := d
  obtain ⟨hy, hm1, hm2, hd1, hd2⟩ := h
  simp only at hy hm1 hm2 hd1 hd2 h2
  have hdim1 := daysInMonth_ge y (m - 1)
  have hdim2 : daysInMonth (y - 1) 12 = 31 := by simp [daysInMonth]
  unfold prevDay validDate
  dsimp only
  split
  · dsimp only; omega
  · split <;> dsimp only <;> omega

/-! Concrete stored states used to evaluate the storage-backed operations.
All use one active weekly worker (id 1, anchor 2024-01-01), one task type
(id 1, code COMBING, default_rate_ngn 3, rate_ngn_per_unit 2) and one open
work day (id 1, 2024-01-02, logged by user 7). -/

/-- A task already claimed by payroll run 5: approved, pay 10, quantity 2. -/
def exPaidDB : DB :=
  { workers := [⟨1, "W", .weekly, ⟨2024, 1, 1⟩, true, none⟩],
    taskTypes := [⟨1, "COMBING", 3, 2⟩],
    workerRates := [],
    workDays := [⟨1, 1, ⟨2024, 1, 2⟩, false, 7⟩],
    workTasks := [⟨1, 1, 1, 2, .approved, 10, some 5, none, none, none⟩],
    payrollRuns := [⟨5, ⟨2024, 1, 7⟩, 9, none⟩] }

/-- An approved, unpaid task of quantity 2 and settled pay 6. -/
def exRunDB : DB :=
  { workers := [⟨1, "W", .weekly, ⟨2024, 1, 1⟩, true, none⟩],
    taskTypes := [⟨1, "COMBING", 3, 2⟩],
    workerRates := [],
    workDays := [⟨1, 1, ⟨2024, 1, 2⟩, false, 7⟩],
    workTasks := [⟨1, 1, 1, 2, .approved, 6, none, none, none, none⟩],
    payrollRuns := [] }

/-- One active worker with no tasks at all. -/
def exEmptyTasksDB : DB :=
  { workers := [⟨1, "W", .weekly, ⟨2024, 1, 1⟩, true, none⟩],
    taskTypes := [⟨1, "COMBING", 3, 2⟩],
    workerRates := [],
    workDays := [],
    workTasks := [],
    payrollRuns := [] }

/-- A closed work day with one pending task (quantity 2), used to observe
the closed-day behaviour. -/
def exClosedDB : DB :=
  { workers := [⟨1, "W", .weekly, ⟨2024, 1, 1⟩, true, none⟩],
    taskTypes := [⟨1, "COMBING", 3, 2⟩],
    workerRates := [],
    workDays := [⟨1, 1, ⟨2024, 1, 2⟩, true, 7⟩],
    workTasks := [⟨1, 1, 1, 2, .pending, 0, none, none, none, none⟩],
    payrollRuns := [] }

/-- A worker override rate of 1/8 beside default_rate_ngn 3 and
rate_ngn_per_unit 2, with one pending task of quantity 1 on an open
day. -/
def exRateDB : DB :=
  { workers := [⟨1, "W", .weekly, ⟨2024, 1, 1⟩, true, none⟩],
    taskTypes := [⟨1, "COMBING", 3, 2⟩],
    workerRates := [⟨1, 1, 1/8⟩],
    workDays := [⟨1, 1, ⟨2024, 1, 2⟩, false, 7⟩],
    workTasks := [⟨1, 1, 1, 1, .pending, 0, none, none, none, none⟩],
    payrollRuns := [] }

example : rubric_from_logged 0 30 = ⟨1/2, false, 60, 1/2⟩ := by
  norm_num [rubric_from_logged, Rubric.mk.injEq]

example : period_for_worker .weekly ⟨2024, 1, 10⟩ ⟨2024, 1, 5⟩ = (⟨2024, 1, 10⟩, ⟨2024, 1, 5⟩) := by decide

example : compute_period .monthly ⟨2023, 1, 31⟩ ⟨2023, 2, 28⟩ = (⟨2023, 2, 28⟩, ⟨2023, 3, 27⟩) := by decide

example : roundHalfUp2 (1/8) = 13/100 := by norm_num [roundHalfUp2]

example : roundHalfEven2 (1/8) = 12/100 := by norm_num [roundHalfEven2]

example : roundHalfUp2 (3335/1000 * 100) = 333 + 1/2 := by norm_num [roundHalfUp2]

/-! Claim theorems. -/

/-- find? after the decision update of setTaskDecision returns the
updated record. -/
theorem find?_decisionUpdate (i : Nat) (st : Status) (u : Nat) (r : Option String)
    (p : ℚ) : ∀ (l : List WorkTask) (wt : WorkTask),
    l.find? (fun t => t.id == i) = some wt →
    (l.map (fun t => if t.id == i then
        { t with
            status := st, decidedBy := some u, decisionReason := r, approvedPay := p }
      else t)).find? (fun t => t.id == i)
      = some { wt with
                 status := st, decidedBy := some u, decisionReason := r,
                 approvedPay := p }
  | [], wt, h => by simp [List.find?] at h
  | t :: ts, wt, h => by
    by_cases hti : (t.id == i) = true
    · simp only [List.find?, hti] at h
      obtain rfl : t = wt := Option.some.inj h
      simp only [List.map_cons, if_pos hti]
      simp [List.find?, hti]
    · have hti2 : (t.id == i) = false := by
        cases hb : (t.id == i)
        · rfl
        · exact absurd hb hti
      simp only [List.find?, hti2] at h
      simp only [List.map_cons, if_neg hti]
      have hrec := find?_decisionUpdate i st u r p ts wt h
      simp only [List.find?, hti2]
      exact hrec

/-- Looking a task up after setTaskDecision returns the updated record. -/
theorem findTask_setTaskDecision (db : DB) (i : Nat) (st : Status) (u : Nat)
    (r : Option String) (p : ℚ) (wt : WorkTask) (h : findTask db i = some wt) :
    findTask (setTaskDecision db i st u r p) i
      = some { wt with
                 status := st, decidedBy := some u, decisionReason := r,
                 approvedPay := p } := by
  unfold findTask setTaskDecision at *
  exact find?_decisionUpdate i st u r p db.workTasks wt h

/-- C8 counterexample: on a closed day all four mutating operations do
fail and leave the state unchanged, but with a 400 bad-request error
(detail Work day is closed), not with the 409 Conflict status the claim
asserts; the source reserves 409 for the already-paid case. -/
theorem claim8_closed_day_counterexample :
    decide_task exClosedDB 1 .approved none 9 = .error ⟨400, "Work day is closed"⟩
    ∧ add_work_task exClosedDB 1 1 3 none 2 = .error ⟨400, "Work day is closed"⟩
    ∧ update_pending_task exClosedDB 1 ⟨some 5, none, none⟩ 9 .admin
      = .error ⟨400, "Work day is closed"⟩
    ∧ delete_pending_task exClosedDB 1 9 .admin = .error ⟨400, "Work day is closed"⟩
    ∧ (400 : Nat) ≠ 409 := by
  exact ⟨rfl, rfl, rfl, rfl, by decide⟩

/-- C8 (amended): for every stored state, a task on a closed work day
makes the decision endpoint, the task edit and the task deletion fail with
the 400 error Work day is closed, and task creation on that closed day
fails the same way (for a non-negative requested quantity, which is
checked first); each check precedes every write, and an error aborts the
transaction, so the stored state is unchanged. The error is HTTP 400, not
the 409 Conflict the specification names for this case. -/
theorem claim8_closed_day_amended (db : DB) (wt : WorkTask) (wd : WorkDay)
    (ttid : Nat) (q : ℚ) (note : Option String) (newId : Nat) (patch : TaskPatch)
    (uid : Nat) (role : Role) (st : Decision) (reason : Option String)
    (ht : findTask db wt.id = some wt)
    (hd : findDay db wt.workDayId = some wd)
    (hc : wd.isClosed = true)
    (hq : ¬ q < 0) :
    decide_task db wt.id st reason uid = .error ⟨400, "Work day is closed"⟩
    ∧ add_work_task db wt.workDayId ttid q note newId = .error ⟨400, "Work day is closed"⟩
    ∧ update_pending_task db wt.id patch uid role = .error ⟨400, "Work day is closed"⟩
    ∧ delete_pending_task db wt.id uid role = .error ⟨400, "Work day is closed"⟩ := by
  have hassert : assert_workday_open_by_task db wt.id
      = .error ⟨400, "Work day is closed"⟩ := by
    unfold assert_workday_open_by_task
    simp [ht, hd, hc]
  refine ⟨?_, ?_, ?_, ?_⟩
  · unfold decide_task
    rw [hassert]
    rfl
  · unfold add_work_task
    rw [if_neg hq, hd]
    simp [hc]
  · unfold update_pending_task
    rw [hassert]
    rfl
  · unfold delete_pending_task
    rw [hassert]
    rfl

/-- C8 witness: the amended theorem applied to the closed day of
exClosedDB. -/
theorem claim8_closed_day_witness :
    decide_task exClosedDB 1 .rejected none 11 = .error ⟨400, "Work day is closed"⟩
    ∧ add_work_task exClosedDB 1 1 4 none 3 = .error ⟨400, "Work day is closed"⟩ :=
  have h := claim8_closed_day_amended exClosedDB
    ⟨1, 1, 1, 2, .pending, 0, none, none, none, none⟩ ⟨1, 1, ⟨2024, 1, 2⟩, true, 7⟩
    1 4 none 3 ⟨none, none, none⟩ 11 .admin .rejected none rfl rfl rfl (by norm_num)
  ⟨h.1, h.2.1⟩

/-- C9 counterexample: at category_a_qty 0 and category_b_qty 30 the
rubric returns progress one half and target not met as claimed, but its
two remaining figures are 60 metres of weaving and half a kilogram of
combing: neither remaining figure is 0, while the claim asserts
remaining_b_to_equivalence equals 0. -/
theorem claim9_rubric_counterexample :
    rubric_from_logged 0 30 = ⟨1/2, false, 60, 1/2⟩
    ∧ (60 : ℚ) ≠ 0 ∧ (1/2 : ℚ) ≠ 0 := by
  refine ⟨by norm_num [rubric_from_logged, Rubric.mk.injEq], by norm_num, by norm_num⟩

/-- C9 (amended): for all quantities the rubric computes progress as
a + b divided by 60 and meets the target exactly when progress reaches 1;
each remaining figure is nonnegative and reaches 0 exactly when its own
category alone covers the target (combing at 1 kilogram, weaving at 60
metres) — the remaining figure ignores the other category's quantity. At
(0, 30) the outputs are progress one half, target not met, 60 metres of
weaving needed and half a kilogram of combing needed. -/
theorem claim9_rubric_amended (a b : ℚ) :
    (rubric_from_logged a b).progressKgEquiv = a + b / 60
    ∧ ((rubric_from_logged a b).targetMet = true ↔ 1 ≤ a + b / 60)
    ∧ 0 ≤ (rubric_from_logged a b).weavingNeededM
    ∧ 0 ≤ (rubric_from_logged a b).combingNeededKg
    ∧ ((rubric_from_logged a b).weavingNeededM = 0 ↔ 1 ≤ a)
    ∧ ((rubric_from_logged a b).combingNeededKg = 0 ↔ 60 ≤ b)
    ∧ rubric_from_logged 0 30 = ⟨1/2, false, 60, 1/2⟩ := by
  unfold rubric_from_logged
  dsimp only
  refine ⟨rfl, by simp, ?_, ?_, ?_, ?_, by norm_num [Rubric.mk.injEq]⟩
  · split
    · rename_i hlt
      split <;> linarith
    · exact le_refl 0
  · split
    · rename_i hlt
      split <;> linarith
    · exact le_refl 0
  · constructor
    · intro h
      by_contra hc
      push_neg at hc
      rw [if_pos hc] at h
      have hw : (0 : ℚ) < (1 - a) * 60 := by linarith
      rw [if_neg (by linarith)] at h
      linarith
    · intro h
      rw [if_neg (by linarith)]
  · constructor
    · intro h
      by_contra hc
      push_neg at hc
      rw [if_pos hc] at h
      have hw : (0 : ℚ) < (60 - b) / 60 := by linarith
      rw [if_neg (by linarith)] at h
      linarith
    · intro h
      rw [if_neg (by linarith)]

/-- C9 witness: the amended theorem evaluated at two concrete inputs. -/
theorem claim9_rubric_witness :
    (rubric_from_logged 2 0).weavingNeededM = 0
    ∧ ((rubric_from_logged 0 30).targetMet = false) :=
  ⟨(claim9_rubric_amended 2 0).2.2.2.2.1.mpr (by norm_num),
   by
    have h := (claim9_rubric_amended 0 30).2.2.2.2.2.2
    rw [h]⟩

/-- C1: a task whose paid_run_id is set is immutable under decisions. The
single decide endpoint does reject with 409 Conflict and leaves the state
alone, but the bulk variant has no paid_run_id check at all: an admin
bulk-decision on the already-paid task 1 of exPaidDB reports one update
and overwrites the settled status and pay while the task still references
run 5 — the code contradicts the invariant that single decide enforces. -/
theorem claim1_paid_task_decisions :
    decide_task exPaidDB 1 .rejected none 9
      = .error ⟨409, "Task already paid; cannot change decision"⟩
    ∧ decide_task exPaidDB 1 .approved none 9
      = .error ⟨409, "Task already paid; cannot change decision"⟩
    ∧ (bulk_decide exPaidDB [1] .rejected none 9 .admin).2 = 1
    ∧ (findTask (bulk_decide exPaidDB [1] .rejected none 9 .admin).1 1).map
        (fun t => (t.status, t.approvedPay, t.paidRunId))
      = some (.rejected, 0, some 5) := by
  refine ⟨rfl, rfl, rfl, rfl⟩

/-- C2: the eligibility selection shared by the payroll read paths (and by
the text of create_payroll_run's query) only ever returns approved tasks
with a null paid_run_id, so a task claimed by a run can never be selected
again; but create_payroll_run itself aborts with a NameError on its first
worker (it binds query parameters from the undefined names worker_id,
period_start and period_end), so with any active worker present no run —
first or second — ever selects or marks a task. -/
theorem claim2_exactly_once :
    (∀ (db : DB) (wid : Nat) (s e : Date) (t : WorkTask),
        t ∈ payrollRows db wid s e → t.paidRunId = none ∧ t.status = .approved)
    ∧ create_payroll_run exRunDB ⟨2024, 1, 8⟩ none 9 100
      = .error ⟨500, "NameError: name worker_id is not defined"⟩ := by
  constructor
  · intro db wid s e t ht
    simp only [payrollRows, List.mem_filter, Bool.and_eq_true, beq_iff_eq,
      Option.isNone_iff_eq_none] at ht
    obtain ⟨-, ⟨⟨-, -⟩, hst⟩, hpaid⟩ := ht
    exact ⟨hpaid, hst⟩
  · rfl

/-- C2 witness: task 1 of exRunDB is selected for worker 1 over the week
of 2024-01-01, and the theorem yields that it is unpaid and approved. -/
theorem claim2_exactly_once_witness :
    ∃ t : WorkTask, t ∈ payrollRows exRunDB 1 ⟨2024, 1, 1⟩ ⟨2024, 1, 7⟩
      ∧ t.paidRunId = none ∧ t.status = .approved := by
  refine ⟨⟨1, 1, 1, 2, .approved, 6, none, none, none, none⟩, by decide, ?_⟩
  exact claim2_exactly_once.1 exRunDB 1 ⟨2024, 1, 1⟩ ⟨2024, 1, 7⟩ _ (by decide)

/-- C3: the per-worker aggregation of create_payroll_run is never reached:
the eligibility query just above it raises NameError (undefined worker_id,
period_start, period_end), so the run aborts with nothing persisted. Even
with the intended bindings the aggregation reads the wrong columns: it
sums wt.quantity (column 2 of the select id, code, quantity) as the total
pay and compares the task id (column 0) against the category codes, so
category totals would always be zero. -/
theorem claim3_run_aggregation :
    create_payroll_run exRunDB ⟨2024, 1, 8⟩ none 9 101
      = .error ⟨500, "NameError: name worker_id is not defined"⟩ := by
  rfl

/-- C7: with one active worker and no tasks at all, create_payroll_run
does not skip the worker: it crashes on the NameError in the eligibility
query before any run item insert, and the insert itself is unconditional
in the source (no check that the selection is nonempty), contradicting the
claim that rows are only created when there is something to pay. -/
theorem claim7_zero_eligible_no_item :
    create_payroll_run exEmptyTasksDB ⟨2024, 2, 1⟩ none 9 102
      = .error ⟨500, "NameError: name worker_id is not defined"⟩ := by
  rfl

/-- Read-path companion fact for C7: every entry of the payroll-due
listing has a strictly positive recomputed total. -/
theorem payroll_due_entries_positive (db : DB) (asOf : Date) (role : Role)
    (scope : Option Nat) (en : DueEntry) (h : en ∈ payroll_due db asOf role scope) :
    0 < en.totalPay := by
  simp only [payroll_due, List.mem_filterMap] at h
  obtain ⟨w, hw, hen⟩ := h
  simp only [payroll_due_entry] at hen
  split at hen
  · exact absurd hen (by simp)
  · split at hen
    · rename_i hpos
      obtain rfl : _ = en := Option.some.inj hen
      exact hpos
    · exact absurd hen (by simp)


/-- C5 counterexample: period_for_worker for a weekly worker whose anchor
(2024-01-10) lies after as_of (2024-01-05) returns the pair
(anchor, as_of), whose end precedes its start: the period has negative
length, contradicting the claim that period_end is never before
period_start for every valid input. -/
theorem claim5_period_nonneg_counterexample :
    period_for_worker .weekly ⟨2024, 1, 10⟩ ⟨2024, 1, 5⟩
      = (⟨2024, 1, 10⟩, ⟨2024, 1, 5⟩)
    ∧ dateLt ⟨2024, 1, 5⟩ ⟨2024, 1, 10⟩ := by
  exact ⟨by decide, by decide⟩

/-- C5 (amended): for all valid dates, compute_period always returns an
inclusive pair with period_end at or after period_start, and
period_for_worker does as well except in its weekly/biweekly clamp branch
when as_of precedes the anchor (there it returns (anchor, as_of) with the
end strictly before the start). -/
theorem claim5_period_nonneg_amended (payout : Freq) (anchor asOf : Date)
    (hA : validDate anchor) (hO : validDate asOf) :
    dateLe (compute_period payout anchor asOf).1 (compute_period payout anchor asOf).2
    ∧ ((payout = .monthly ∨ dateLe anchor asOf) →
        dateLe (period_for_worker payout anchor asOf).1
          (period_for_worker payout anchor asOf).2) :=
  ⟨compute_period_end_ge_start payout anchor asOf hA hO,
   fun h => period_for_worker_end_ge_start payout anchor asOf hA hO h⟩

/-- C5 witness: the amended theorem applied to concrete dates, including
the clamped weekly case with as_of before the anchor for compute_period
and the monthly case for period_for_worker. -/
theorem claim5_period_nonneg_witness :
    dateLe (compute_period .weekly ⟨2024, 1, 10⟩ ⟨2024, 1, 5⟩).1
      (compute_period .weekly ⟨2024, 1, 10⟩ ⟨2024, 1, 5⟩).2
    ∧ dateLe (period_for_worker .monthly ⟨2024, 1, 10⟩ ⟨2024, 1, 5⟩).1
      (period_for_worker .monthly ⟨2024, 1, 10⟩ ⟨2024, 1, 5⟩).2 :=
  ⟨(claim5_period_nonneg_amended .weekly ⟨2024, 1, 10⟩ ⟨2024, 1, 5⟩
      (by decide) (by decide)).1,
   (claim5_period_nonneg_amended .monthly ⟨2024, 1, 10⟩ ⟨2024, 1, 5⟩
      (by decide) (by decide)).2 (Or.inl rfl)⟩

/-- C6 counterexample: anchor day 31 (anchor 2023-01-31), as_of
2023-02-28. The period starts on the clamped anchor day 2023-02-28 as the
claim describes, but it ends on 2023-03-27 â the add-month helper reuses
the clamped start day 28, not the anchor day-of-month 31 â while the
claim requires the day before the following month's anchor day, which is
2023-03-30 (the day before 2023-03-31). -/
theorem claim6_monthly_period_counterexample :
    compute_period .monthly ⟨2023, 1, 31⟩ ⟨2023, 2, 28⟩
      = (⟨2023, 2, 28⟩, ⟨2023, 3, 27⟩)
    ∧ (⟨2023, 3, 27⟩ : Date) ≠ ⟨2023, 3, 30⟩ := by
  exact ⟨by decide, by decide⟩

/-- C6 (amended): for valid anchor and as_of (year at least 2, away from
the calendar lower bound where the source raises), the monthly period
starts on the most recent occurrence of the anchor's day-of-month on or
before as_of, clamped to the last valid day of months lacking that day â
start is valid, at or before as_of, lies on a clamped anchor day, and is
the latest such date â and ends on the valid date one day before one
month after the clamped start, where the month addition clamps against
the start's (already clamped) day rather than the anchor's original
day-of-month. -/
theorem claim6_monthly_period_amended (anchor asOf : Date)
    (hA : validDate anchor) (hO : validDate asOf) (hy2 : 2 ≤ asOf.year) :
    validDate (compute_period .monthly anchor asOf).1
    ∧ validDate (compute_period .monthly anchor asOf).2
    ∧ dateLe (compute_period .monthly anchor asOf).1 asOf
    ∧ (compute_period .monthly anchor asOf).1.day
        = min anchor.day (daysInMonth (compute_period .monthly anchor asOf).1.year
            (compute_period .monthly anchor asOf).1.month)
    ∧ (∀ t : Date, validDate t → dateLe t asOf →
        t.day = min anchor.day (daysInMonth t.year t.month) →
        dateLe t (compute_period .monthly anchor asOf).1)
    ∧ (compute_period .monthly anchor asOf).2
        = prevDay (addMonth (compute_period .monthly anchor asOf).1) := by
  obtain ⟨hv, hle, hday⟩ := monthly_start_facts anchor asOf hA hO hy2
  have hend : (compute_period .monthly anchor asOf).2
      = prevDay (addMonth (compute_period .monthly anchor asOf).1) := addDays_neg_one _
  have ham := addMonth_valid (compute_period .monthly anchor asOf).1
    hv.1 hv.2.1 hv.2.2.1 hv.2.2.2.1
  have hev : validDate (compute_period .monthly anchor asOf).2 := by
    rw [hend]
    apply prevDay_valid _ ham.1
    rcases ham.2 with h | h
    · exact Or.inl h
    · exact Or.inr (Or.inl h)
  exact ⟨hv, hev, hle, hday,
    fun t htv htle htday => monthly_start_max anchor asOf t hA hO htv htle htday, hend⟩

/-- C6 witness: the amended theorem at anchor 2023-01-31 and as_of
2023-02-28, instantiating the maximality clause at the anchor itself. -/
theorem claim6_monthly_period_witness :
    dateLe (compute_period .monthly ⟨2023, 1, 31⟩ ⟨2023, 2, 28⟩).1 ⟨2023, 2, 28⟩
    ∧ dateLe ⟨2023, 1, 31⟩ (compute_period .monthly ⟨2023, 1, 31⟩ ⟨2023, 2, 28⟩).1 :=
  have h := claim6_monthly_period_amended ⟨2023, 1, 31⟩ ⟨2023, 2, 28⟩
    (by decide) (by decide) (by norm_num)
  ⟨h.2.2.1, h.2.2.2.2.1 ⟨2023, 1, 31⟩ (by decide) (by decide) (by decide)⟩


/-- C4 counterexample: approving task 1 of exRateDB through the single
decide endpoint persists pay 2.00 = round-half-up of quantity 1 times the
task type's rate_ngn_per_unit, ignoring the worker override 1/8 that the
claimed lookup order resolves to (which would give 0.13); and the bulk
variant, which does use the override through effective_rate, quantizes
with the default banker's rounding, persisting 0.12 where round-half-up
gives 0.13. -/
theorem claim4_decision_pay_counterexample :
    (decide_task exRateDB 1 .approved none 9).map (fun r => r.2)
      = .ok (roundHalfUp2 (1 * 2))
    ∧ effective_rate exRateDB 1 1 = 1/8
    ∧ roundHalfUp2 (1 * 2) = 2
    ∧ roundHalfUp2 (1 * (1/8)) = 13/100
    ∧ (2 : ℚ) ≠ 13/100
    ∧ (findTask (bulk_decide exRateDB [1] .approved none 9 .admin).1 1).map
        (fun t => t.approvedPay)
      = some (roundHalfEven2 (1 * effective_rate exRateDB 1 1))
    ∧ roundHalfEven2 (1 * (1/8)) = 12/100
    ∧ (12/100 : ℚ) ≠ 13/100 := by
  refine ⟨rfl, rfl, by norm_num [roundHalfUp2], by norm_num [roundHalfUp2],
    by norm_num, rfl, by norm_num [roundHalfEven2], by norm_num⟩

/-- C4 (amended): under the stated preconditions (task present, its day
open, its task type present, not yet paid), the single decide endpoint
persists round-half-up of quantity times the task type's
rate_ngn_per_unit (no worker override) for approval and 0 for rejection,
while the bulk variant persists the default half-even quantize of
quantity times effective_rate (worker override, else default rate, else
zero). -/
theorem claim4_decision_pay_amended (db : DB) (wt : WorkTask) (wd : WorkDay)
    (tt : TaskType) (st : Decision) (reason : Option String) (uid : Nat)
    (ht : findTask db wt.id = some wt)
    (hd : findDay db wt.workDayId = some wd)
    (hopen : wd.isClosed = false)
    (htt : findTaskType db wt.taskTypeId = some tt)
    (hunpaid : wt.paidRunId = none) :
    decide_task db wt.id st reason uid
      = .ok (setTaskDecision db wt.id st.toStatus uid reason
          (match st with
            | .approved => roundHalfUp2 (wt.quantity * tt.ratePerUnit)
            | .rejected => 0),
          match st with
          | .approved => roundHalfUp2 (wt.quantity * tt.ratePerUnit)
          | .rejected => 0)
    ∧ bulk_decide db [wt.id] st reason uid .admin
      = (setTaskDecision db wt.id st.toStatus uid reason
          (match st with
            | .approved =>
              roundHalfEven2 (wt.quantity * effective_rate db wd.workerId wt.taskTypeId)
            | .rejected => 0), 1)
    ∧ (findTask (setTaskDecision db wt.id st.toStatus uid reason
          (match st with
            | .approved => roundHalfUp2 (wt.quantity * tt.ratePerUnit)
            | .rejected => 0)) wt.id).map (fun t => t.approvedPay)
        = some (match st with
            | .approved => roundHalfUp2 (wt.quantity * tt.ratePerUnit)
            | .rejected => 0) := by
  have hassert : assert_workday_open_by_task db wt.id = .ok () := by
    unfold assert_workday_open_by_task
    simp [ht, hd, hopen]
  refine ⟨?_, ?_, ?_⟩
  · unfold decide_task
    rw [hassert]
    simp only [ht, htt, hunpaid]
    cases st <;> rfl
  · unfold bulk_decide
    simp only [List.foldl]
    unfold bulk_decide_step
    dsimp only
    rw [hassert]
    simp only [ht, hd, can_decide_task]
    cases st <;> rfl
  · rw [findTask_setTaskDecision db wt.id _ uid reason _ wt ht]
    rfl

/-- C4 witness: the amended theorem applied to the concrete exRateDB state
for a rejection, where the persisted pay is 0. -/
theorem claim4_decision_pay_witness :
    decide_task exRateDB 1 .rejected none 9
      = .ok (setTaskDecision exRateDB 1 .rejected 9 none 0, 0) :=
  (claim4_decision_pay_amended exRateDB
    ⟨1, 1, 1, 1, .pending, 0, none, none, none, none⟩
    ⟨1, 1, ⟨2024, 1, 2⟩, false, 7⟩ ⟨1, "COMBING", 3, 2⟩ .rejected none 9
    rfl rfl rfl rfl rfl).1

/-- When every selected approved task is unpaid, the unpaid filter of the
single-worker payroll query selects exactly the rows of the all-workers
query. -/
theorem payrollRows_eq_all_of_unpaid (db : DB) (wid : Nat) (s e : Date)
    (h : ∀ t ∈ payroll_all_rows db wid s e, t.paidRunId = none) :
    payrollRows db wid s e = payroll_all_rows db wid s e := by
  unfold payrollRows payroll_all_rows at *
  apply List.filter_congr
  intro x hx
  by_cases hq : (taskInPeriod db wid s e x && hasTaskType db x
      && (x.status == Status.approved)) = true
  · have hxmem : x ∈ db.workTasks.filter (fun t => taskInPeriod db wid s e t
        && hasTaskType db t && (t.status == Status.approved)) :=
      List.mem_filter.mpr ⟨hx, hq⟩
    have hnone := h x hxmem
    simp [hq, hnone]
  · have hq2 : (taskInPeriod db wid s e x && hasTaskType db x
        && (x.status == Status.approved)) = false := by
      cases hb : (taskInPeriod db wid s e x && hasTaskType db x
          && (x.status == Status.approved))
      · rfl
      · exact absurd hb hq
    rw [hq2]
    simp

/-- C10 (amended): whenever the all-workers listing's selection for a
worker is nonempty (its loop otherwise raises AttributeError on the
integer 0 produced by summing nothing) and contains no task already
claimed by a payroll run, the single-worker payroll view and the
all-workers listing agree on that worker's approved total pay; the
counterexample shows they disagree as soon as a selected task is paid,
because only the single-worker query filters on paid_run_id null. -/
theorem claim10_payroll_consistency_amended (db : DB) (w : Worker) (asOf : Date)
    (hw : findWorker db w.id = some w)
    (hne : payroll_all_rows db w.id (period_for_worker w.payout w.anchor asOf).1
        (period_for_worker w.payout w.anchor asOf).2 ≠ [])
    (hunpaid : ∀ t ∈ payroll_all_rows db w.id
        (period_for_worker w.payout w.anchor asOf).1
        (period_for_worker w.payout w.anchor asOf).2, t.paidRunId = none) :
    (payroll_view db w.id asOf).map (fun r => r.totalPay)
      = payroll_all_item db w asOf := by
  have heq := payrollRows_eq_all_of_unpaid db w.id
    (period_for_worker w.payout w.anchor asOf).1
    (period_for_worker w.payout w.anchor asOf).2 hunpaid
  unfold payroll_view payroll_all_item
  rw [hw]
  simp only
  cases hrows : payroll_all_rows db w.id
      (period_for_worker w.payout w.anchor asOf).1
      (period_for_worker w.payout w.anchor asOf).2 with
  | nil => exact absurd hrows hne
  | cons a l =>
    rw [heq, hrows]
    rfl

/-- C10 counterexample: in exPaidDB the only approved task in worker 1's
current weekly period is already claimed by run 5; the single-worker view
excludes it and reports total 0, while the all-workers listing, which has
no paid_run_id filter, reports total 10. -/
theorem claim10_payroll_consistency_counterexample :
    (payroll_view exPaidDB 1 ⟨2024, 1, 2⟩).map (fun r => r.totalPay) = .ok 0
    ∧ payroll_all_item exPaidDB ⟨1, "W", .weekly, ⟨2024, 1, 1⟩, true, none⟩
        ⟨2024, 1, 2⟩ = .ok 10
    ∧ (0 : ℚ) ≠ 10 := by
  have hper : period_for_worker .weekly ⟨2024, 1, 1⟩ ⟨2024, 1, 2⟩
      = (⟨2024, 1, 1⟩, ⟨2024, 1, 2⟩) := by decide
  have hrows0 : payrollRows exPaidDB 1 ⟨2024, 1, 1⟩ ⟨2024, 1, 2⟩ = [] := by decide
  have hrows1 : payroll_all_rows exPaidDB 1 ⟨2024, 1, 1⟩ ⟨2024, 1, 2⟩
      = [⟨1, 1, 1, 2, .approved, 10, some 5, none, none, none⟩] := by decide
  refine ⟨?_, ?_, by norm_num⟩
  · unfold payroll_view
    rw [show findWorker exPaidDB 1
        = some ⟨1, "W", .weekly, ⟨2024, 1, 1⟩, true, none⟩ from rfl]
    simp only [hper, hrows0]
    simp [roundHalfEven2, Except.map]
  · unfold payroll_all_item
    simp only [hper, hrows1]
    simp only [List.map_cons, List.map_nil, List.sum_cons, List.sum_nil]
    norm_num [roundHalfEven2]

/-- C10 witness: the amended theorem on exRunDB, whose single approved
task is unpaid, yields agreement of the two read paths for worker 1. -/
theorem claim10_payroll_consistency_witness :
    (payroll_view exRunDB 1 ⟨2024, 1, 2⟩).map (fun r => r.totalPay)
      = payroll_all_item exRunDB ⟨1, "W", .weekly, ⟨2024, 1, 1⟩, true, none⟩
          ⟨2024, 1, 2⟩ :=
  claim10_payroll_consistency_amended exRunDB
    ⟨1, "W", .weekly, ⟨2024, 1, 1⟩, true, none⟩ ⟨2024, 1, 2⟩ rfl
    (by decide) (by decide)

end Fibre
